import Mathlib

/-!
Shallow embedding of the adb-visual-manager remote-session bridge
(`src/models/filemanager.py`, `processmanager.py`, `appmanager.py`,
`adbmanager.py`, `logcatmanager.py`, `src/controllers/logcatcontroller.py`).

A device's shell channel is modelled as a pure oracle `Shell : String → String`
mapping the exact command string issued by the Python code to the text the
device returns.  Python string primitives used by the code (`str.split`,
`str.strip`, `in`, `int`, `str.isdigit`, `os.path.dirname`, `os.path.join`,
`str.title`, …) are modelled first, with Python semantics on ASCII text.
-/

namespace AdbVM

/-- Python whitespace (`str.split()` / `str.strip()` default set, ASCII part). -/
def pyIsSpace (c : Char) : Bool :=
  c == ' ' || c == '\t' || c == '\n' || c == '\r' || c == Char.ofNat 11 || c == Char.ofNat 12

/-- Helper for `pySplitWs`: accumulate the current word (reversed) while
scanning the character list. -/
def pySplitWsAux : List Char → List Char → List String
  | [], acc => if acc.isEmpty then [] else [String.mk acc.reverse]
  | c :: cs, acc =>
    if pyIsSpace c then
      if acc.isEmpty then pySplitWsAux cs []
      else String.mk acc.reverse :: pySplitWsAux cs []
    else pySplitWsAux cs (c :: acc)

/-- Python `str.split()` with no argument: split on runs of whitespace,
dropping empty tokens. -/
def pySplitWs (s : String) : List String := pySplitWsAux s.toList []

/-- Python `str.strip()` with no argument. -/
def pyStrip (s : String) : String :=
  String.mk (((s.toList.dropWhile pyIsSpace).reverse.dropWhile pyIsSpace).reverse)

/-- Boolean list-prefix test (used to model Python substring search). -/
def listStarts : List Char → List Char → Bool
  | [], _ => true
  | _ :: _, [] => false
  | a :: as, b :: bs => a == b && listStarts as bs

/-- Helper for `containsSub`: does `pat` occur in the scanned list? -/
def containsSubAux (pat : List Char) : List Char → Bool
  | [] => listStarts pat []
  | c :: cs => listStarts pat (c :: cs) || containsSubAux pat cs

/-- Python `pat in s` substring test. -/
def containsSub (s pat : String) : Bool := containsSubAux pat.toList s.toList

/-- Python `s.startswith(pre)`. -/
def pyStartsWith (s pre : String) : Bool := listStarts pre.toList s.toList

/-- Python `s.endswith(suf)`. -/
def pyEndsWith (s suf : String) : Bool := listStarts suf.toList.reverse s.toList.reverse

/-- Worker for `pyReplace` (fuel bounds the remaining character count). -/
def pyReplaceFuel (old new : List Char) : Nat → List Char → List Char
  | 0, cs => cs
  | _ + 1, [] => []
  | n + 1, c :: cs =>
    if listStarts old (c :: cs) && !old.isEmpty then
      new ++ pyReplaceFuel old new n ((c :: cs).drop old.length)
    else c :: pyReplaceFuel old new n cs

/-- Python `s.replace(old, new)` for a nonempty `old`: replace every
non-overlapping occurrence, left to right. -/
def pyReplace (s old new : String) : String :=
  String.mk (pyReplaceFuel old.toList new.toList s.toList.length s.toList)

/-- Python `s.lower()` (ASCII model). -/
def pyLower (s : String) : String := String.mk (s.toList.map Char.toLower)

/-- Worker for `pySplit`: fuel-indexed scan (the fuel is an upper bound on
the remaining character count); `acc` holds the current piece reversed. -/
def pySplitFuel (sep : List Char) : Nat → List Char → List Char → List (List Char)
  | 0, _, acc => [acc.reverse]
  | _ + 1, [], acc => [acc.reverse]
  | n + 1, c :: cs, acc =>
    if listStarts sep (c :: cs) && !sep.isEmpty then
      acc.reverse :: pySplitFuel sep n ((c :: cs).drop sep.length) []
    else pySplitFuel sep n cs (c :: acc)

/-- Python `s.split(sep)` for a nonempty separator: split on every
non-overlapping occurrence, left to right, keeping empty pieces. -/
def pySplit (s sep : String) : List String :=
  (pySplitFuel sep.toList s.toList.length s.toList []).map String.mk

/-- Numeric value of a digit string (used for Python `int` on digit input). -/
def natOfDigits (cs : List Char) : Nat :=
  cs.foldl (fun n c => n * 10 + (c.toNat - 48)) 0

/-- Python `str.isdigit()` (ASCII digits). -/
def pyIsdigit (s : String) : Bool :=
  !s.toList.isEmpty && s.toList.all Char.isDigit

/-- Python `int(s)`: optional surrounding whitespace, optional sign, base-10
digits; `none` models the `ValueError` branch. -/
def pyInt? (s : String) : Option Int :=
  match (pyStrip s).toList with
  | [] => none
  | c :: cs =>
    if c == '-' then
      if !cs.isEmpty && cs.all Char.isDigit then some (-(natOfDigits cs : Int)) else none
    else if c == '+' then
      if !cs.isEmpty && cs.all Char.isDigit then some ((natOfDigits cs : Int)) else none
    else if (c :: cs).all Char.isDigit then some ((natOfDigits (c :: cs) : Int))
    else none

/-- Python `sep.join(xs)`. -/
def pyJoin (sep : String) : List String → String
  | [] => ""
  | [x] => x
  | x :: xs => x ++ sep ++ pyJoin sep xs

/-- Python `os.path.dirname` (POSIX flavour). -/
def posixDirname (p : String) : String :=
  let cs := p.toList
  if cs.contains '/' then
    let tailLen := (cs.reverse.takeWhile (fun c => c != '/')).length
    let head := cs.take (cs.length - tailLen)
    if head.all (fun c => c == '/') then String.mk head
    else String.mk ((head.reverse.dropWhile (fun c => c == '/')).reverse)
  else ""

/-- Python `os.path.join a b` (POSIX flavour, two arguments). -/
def posixJoin (a b : String) : String :=
  if pyStartsWith b "/" then b
  else if a == "" || pyEndsWith a "/" then a ++ b
  else a ++ "/" ++ b

/-- A single-quote character, used to assemble the shell command strings
exactly as the Python f-strings do. -/
def sq : String := String.mk [Char.ofNat 39]

/-- The device shell channel: command string in, output text out. -/
abbrev Shell := String → String

/-- `FileItem` from `src/models/filemodel.py` (the `modified_date` field is
never set by the manager and is omitted). -/
structure FileItem where
  name : String
  path : String
  size : Nat
  permissions : String
  is_directory : Bool
  is_symlink : Bool
  owner : String
deriving Repr, DecidableEq

namespace FileManager

/-- The `ls -ld` probe command issued by `FileManager._resolve_symlink`. -/
def lsLdCmd (path : String) : String :=
  "ls -ld " ++ sq ++ path ++ sq ++ " 2>/dev/null"

/-- Loop body of `FileManager._resolve_symlink`: the `for _ in range(10)`
loop becomes fuel recursion; `visited` is the Python `visited` set. -/
def resolveSymlinkAux (shell : Shell) : Nat → List String → String → String
  | 0, _, path => path
  | n + 1, visited, path =>
    if visited.contains path then path
    else
      let ls_output := pyStrip (shell (lsLdCmd path))
      if containsSub ls_output "->" then
        let parts := pySplit ls_output "->"
        if parts.length == 2 then
          let target0 := pyStrip (parts.getD 1 "")
          let target :=
            if pyStartsWith target0 "/" then target0
            else pyReplace (posixJoin (posixDirname path) target0) "\\" "/"
          resolveSymlinkAux shell n (path :: visited) target
        else path
      else path

/-- `FileManager._resolve_symlink`: `max_depth = 10`, empty visited set. -/
def resolve_symlink (shell : Shell) (path : String) : String :=
  resolveSymlinkAux shell 10 [] path

/-- Number of `ls -ld` shell probes issued by `_resolve_symlink`, with the
same control flow as `resolveSymlinkAux`. -/
def resolveSymlinkCalls (shell : Shell) : Nat → List String → String → Nat
  | 0, _, _ => 0
  | n + 1, visited, path =>
    if visited.contains path then 0
    else
      let ls_output := pyStrip (shell (lsLdCmd path))
      1 + (if containsSub ls_output "->" then
        let parts := pySplit ls_output "->"
        if parts.length == 2 then
          let target0 := pyStrip (parts.getD 1 "")
          let target :=
            if pyStartsWith target0 "/" then target0
            else pyReplace (posixJoin (posixDirname path) target0) "\\" "/"
          resolveSymlinkCalls shell n (path :: visited) target
        else 0
      else 0)

/-- Display-path concatenation as written inline in `_parse_ls_line`
(`display_base` plus `/` plus `name`, avoiding a doubled slash). -/
def displayJoin (base name : String) : String :=
  if pyEndsWith base "/" then base ++ name else base ++ "/" ++ name

/-- The `test -d` probe issued for symlink entries in `_parse_ls_line`. -/
def testDirCmd (p : String) : String :=
  "test -d " ++ sq ++ p ++ sq ++ " && echo " ++ sq ++ "1" ++ sq ++ " || echo " ++ sq ++ "0" ++ sq

/-- `FileManager._parse_ls_line`.  Inside the Python `try` block no statement
can raise once `len(parts) >= 8` holds (`int` is guarded by `isdigit`), so the
embedding returns `some` exactly on lines with at least 8 fields. -/
def parse_ls_line (shell : Shell) (line display_base actual_base : String) :
    Option FileItem :=
  let parts := pySplitWs line
  if parts.length < 8 then none
  else
    let permissions := parts.getD 0 ""
    let owner := parts.getD 2 ""
    let p4 := parts.getD 4 ""
    let size : Nat := if pyIsdigit p4 then natOfDigits p4.toList else 0
    let name0 := pyJoin " " (parts.drop 7)
    let name := if containsSub name0 "->" then pyStrip ((pySplit name0 "->").getD 0 "") else name0
    let is_symlink := pyStartsWith permissions "l"
    let is_directory := pyStartsWith permissions "d"
    let display_path := displayJoin display_base name
    let is_directory :=
      if is_symlink then
        let actual_item_path := displayJoin actual_base name
        if pyStrip (shell (testDirCmd actual_item_path)) == "1" then true else is_directory
      else is_directory
    some { name := name, path := display_path, size := size,
           permissions := permissions, is_directory := is_directory,
           is_symlink := is_symlink, owner := owner }

/-- Code-point lexicographic `≤` on character lists (Python string order). -/
def lexLe : List Char → List Char → Bool
  | [], _ => true
  | _ :: _, [] => false
  | a :: as, b :: bs => if a < b then true else if b < a then false else lexLe as bs

/-- Sort key comparison used by `list_directory`:
Python `key=lambda x: (not x.is_directory, x.name.lower())` under the stable
list sort; lexicographic on the pair, `False < True`, code-point order on the
lowercased name. -/
def fileLe (a b : FileItem) : Bool :=
  let ka := !a.is_directory
  let kb := !b.is_directory
  if ka == kb then lexLe ((pyLower a.name).toList) ((pyLower b.name).toList)
  else kb

/-- Insertion step of a stable sort. -/
def insertSorted {α : Type} (le : α → α → Bool) (x : α) : List α → List α
  | [] => [x]
  | y :: ys => if le x y then x :: y :: ys else y :: insertSorted le x ys

/-- Stable insertion sort modelling Python `list.sort(key=...)` up to
permutation. -/
def sortByLe {α : Type} (le : α → α → Bool) : List α → List α
  | [] => []
  | x :: xs => insertSorted le x (sortByLe le xs)

/-- The listing command built by `FileManager.list_directory`. -/
def lsCmd (show_hidden : Bool) (actual_path : String) : String :=
  if show_hidden then "ls -la " ++ sq ++ actual_path ++ sq ++ " 2>&1"
  else "ls -l " ++ sq ++ actual_path ++ sq ++ " 2>&1"

/-- Keep-filter applied to each parsed entry in `list_directory`'s loop:
drop `.` and `..`, and drop dot-files unless `show_hidden`. -/
def keepEntry (show_hidden : Bool) (fi : FileItem) : Bool :=
  !(fi.name == "." || fi.name == "..") &&
    (show_hidden || !pyStartsWith fi.name ".")

/-- The backslash normalization `list_directory` applies to its
`display_path` argument before anything else. -/
def normDisplay (p : String) : String := pyReplace p "\\" "/"

/-- The stripped listing text `list_directory` works on, for a normalized
display path `dp`: the `ls` output against the resolved actual path. -/
def listingOutput (shell : Shell) (dp : String) (show_hidden : Bool) : String :=
  pyStrip (shell (lsCmd show_hidden (resolve_symlink shell dp)))

/-- `FileManager.list_directory` for a reachable device, as a function of the
device's shell oracle.  (The `device is None` guard and the outer `except`
return `[]` before/without consulting the shell and are not reachable in the
pure model.) -/
def list_directory (shell : Shell) (display_path : String) (show_hidden : Bool) :
    List FileItem :=
  let dp := normDisplay display_path
  let actual_path := resolve_symlink shell dp
  let output := listingOutput shell dp show_hidden
  if containsSub output "Permission denied" then []
  else if containsSub output "No such file" || output == "" then []
  else
    let lines := pySplit output "\n"
    let files := lines.filterMap (fun line =>
      if pyStrip line == "" || pyStartsWith line "total" then none
      else
        match parse_ls_line shell line dp actual_path with
        | none => none
        | some fi => if keepEntry show_hidden fi then some fi else none)
    sortByLe fileLe files

end FileManager

/-- `ProcessInfo` from `src/models/processmodel.py` (fields the manager sets;
`cpu_percent`, `mem_percent`, `ppid` keep their defaults and are omitted). -/
structure ProcessInfo where
  pid : Int
  name : String
  user : String
  mem_size : Nat
  state : String
deriving Repr, DecidableEq

namespace ProcessManager

/-- `ProcessManager._parse_ps_line`.  The unguarded `int(parts[0])` raises
`ValueError` on a non-numeric pid, which the `except` turns into `None`;
`int(parts[2])` is guarded by `isdigit`, and `parts[3]` is a nonempty token
so its first character is always taken. -/
def parse_ps_line (line : String) : Option ProcessInfo :=
  let parts := pySplitWs line
  if parts.length < 5 then none
  else
    match pyInt? (parts.getD 0 "") with
    | none => none
    | some pid =>
      let user := parts.getD 1 ""
      let p2 := parts.getD 2 ""
      let vsz : Nat := if pyIsdigit p2 then natOfDigits p2.toList else 0
      let p3 := parts.getD 3 ""
      let state : String :=
        match p3.toList with
        | [] => "R"
        | c :: _ => String.mk [c]
      let name := pyJoin " " (parts.drop 4)
      some { pid := pid, name := name, user := user, mem_size := vsz, state := state }

/-- The process-list command issued by `list_processes`. -/
def psListCmd : String := "ps -A -o PID,USER,VSZ,STAT,NAME"

/-- `ProcessManager.list_processes` for a reachable device. -/
def list_processes (shell : Shell) : List ProcessInfo :=
  let output := pyStrip (shell psListCmd)
  if output == "" then []
  else
    ((pySplit output "\n").drop 1).filterMap (fun line =>
      if pyStrip line == "" then none else parse_ps_line line)

/-- The `kill` command issued by `kill_process`. -/
def killCmd (pid : Int) : String := "kill " ++ toString pid ++ " 2>&1"

/-- The process-name probe issued in the permission-denied fallback. -/
def psNameCmd (pid : Int) : String := "ps -p " ++ toString pid ++ " -o NAME"

/-- The application-level stop issued in the permission-denied fallback. -/
def forceStopCmd (pkg : String) : String := "am force-stop " ++ pkg

/-- `ProcessManager.kill_process`, returning the Python boolean result
together with the ordered list of shell commands issued (the observable
effect trace). -/
def kill_process (shell : Shell) (pid : Int) : Bool × List String :=
  let result := shell (killCmd pid)
  if containsSub result "No such process" then (false, [killCmd pid])
  else if containsSub result "Permission denied" || containsSub result "Operation not permitted" then
    let ps_result := pyStrip (shell (psNameCmd pid))
    let lines := pySplit ps_result "\n"
    if lines.length > 1 then
      let package_name := pyStrip (lines.getD 1 "")
      if containsSub package_name "." then
        (true, [killCmd pid, psNameCmd pid, forceStopCmd package_name])
      else (false, [killCmd pid, psNameCmd pid])
    else (false, [killCmd pid, psNameCmd pid])
  else (true, [killCmd pid])

/-- The `kill -9` command issued by `force_kill_process`. -/
def killDashNineCmd (pid : Int) : String := "kill -9 " ++ toString pid ++ " 2>&1"

/-- The `am kill` command additionally issued by `force_kill_process`'s
fallback. -/
def amKillCmd (pkg : String) : String := "am kill " ++ pkg

/-- `ProcessManager.force_kill_process`, with the same trace convention as
`kill_process`. -/
def force_kill_process (shell : Shell) (pid : Int) : Bool × List String :=
  let result := shell (killDashNineCmd pid)
  if containsSub result "No such process" then (false, [killDashNineCmd pid])
  else if containsSub result "Permission denied" || containsSub result "Operation not permitted" then
    let ps_result := pyStrip (shell (psNameCmd pid))
    let lines := pySplit ps_result "\n"
    if lines.length > 1 then
      let package_name := pyStrip (lines.getD 1 "")
      if containsSub package_name "." then
        (true, [killDashNineCmd pid, psNameCmd pid, forceStopCmd package_name,
                amKillCmd package_name])
      else (false, [killDashNineCmd pid, psNameCmd pid])
    else (false, [killDashNineCmd pid, psNameCmd pid])
  else (true, [killDashNineCmd pid])

end ProcessManager

/-- `AppInfo` from `src/models/appmodel.py` (fields the manager sets;
`install_date` and `size` keep their defaults and are omitted). -/
structure AppInfo where
  package_name : String
  app_name : String
  version : String
  version_code : String
  is_system : Bool
  is_running : Bool
  is_enabled : Bool
deriving Repr, DecidableEq

namespace AppManager

/-- The app-likeness heuristic of `_get_running_packages_batch`:
contains a dot and does not begin with a slash. -/
def appLike (t : String) : Bool := containsSub t "." && !pyStartsWith t "/"

/-- The process-table text `_get_running_packages_batch` parses:
`ps -A` output, falling back to plain `ps` when that is empty. -/
def psOutputOf (shell : Shell) : String :=
  let ps0 := pyStrip (shell "ps -A")
  if ps0 == "" then pyStrip (shell "ps") else ps0

/-- `AppManager._get_running_packages_batch`.  The Python function builds a
set; here the list of tokens added, whose membership is the set's. -/
def get_running_packages_batch (shell : Shell) : List String :=
  let ps_output := psOutputOf shell
  ((pySplit ps_output "\n").drop 1).filterMap (fun line =>
    let parts := pySplitWs line
    if parts.length ≥ 9 then
      let t := parts.getLastD ""
      if appLike t then some t else none
    else none)

/-- Helper for `pyTitle`: the flag records whether the previous character
was alphabetic. -/
def pyTitleAux : Bool → List Char → List Char
  | _, [] => []
  | prev, c :: cs =>
    if c.isAlpha then (if prev then c.toLower else c.toUpper) :: pyTitleAux true cs
    else c :: pyTitleAux false cs

/-- Python `str.title()` (ASCII model). -/
def pyTitle (s : String) : String := String.mk (pyTitleAux false s.toList)

/-- The `dumpsys package` command issued by `_get_app_info_fast`. -/
def dumpsysCmd (pkg : String) : String := "dumpsys package " ++ pkg

/-- One iteration of `_get_app_info_fast`'s dumpsys-parsing loop, threading
`(version, version_code, is_enabled)`.  The inner `try` blocks turn an empty
`split()` (IndexError) into a no-op. -/
def versionStep (st : String × String × Bool) (line : String) : String × String × Bool :=
  let version := st.1
  let version_code := st.2.1
  let is_enabled := st.2.2
  let ls := pyStrip line
  if containsSub ls "versionName=" && version == "Unknown" then
    match pySplitWs ((pySplit ls "versionName=").getD 1 "") with
    | [] => (version, version_code, is_enabled)
    | v :: _ => (v, version_code, is_enabled)
  else if containsSub ls "versionCode=" && version_code == "Unknown" then
    match pySplitWs ((pySplit ls "versionCode=").getD 1 "") with
    | [] => (version, version_code, is_enabled)
    | v :: _ => (version, v, is_enabled)
  else if containsSub ls "enabled=" then
    (version, version_code, containsSub ls "=1" || containsSub (pyLower ls) "=true")
  else (version, version_code, is_enabled)

/-- `AppManager._get_app_info_fast`.  `package_name.split('.')[1]` raises
`IndexError` when the package name has no dot; the surrounding `except`
converts that into `None`. -/
def get_app_info_fast (shell : Shell) (package_name : String)
    (is_running is_system : Bool) : Option AppInfo :=
  let dumpsys := pyStrip (shell (dumpsysCmd package_name))
  let st := (pySplit dumpsys "\n").foldl versionStep ("Unknown", "Unknown", true)
  let segs := pySplit package_name "."
  if segs.length ≤ 1 then none
  else
    some { package_name := package_name,
           app_name := pyTitle (segs.getD 1 ""),
           version := st.1, version_code := st.2.1,
           is_system := is_system, is_running := is_running,
           is_enabled := st.2.2 }

/-- Sort comparison of `list_installed_apps`:
Python `key=lambda x: x.app_name.lower()`. -/
def appLeName (a b : AppInfo) : Bool :=
  FileManager.lexLe ((pyLower a.app_name).toList) ((pyLower b.app_name).toList)

/-- The package-list command issued by `list_installed_apps`. -/
def pmListCmd (show_system : Bool) : String :=
  if show_system then "pm list packages -s" else "pm list packages -3"

/-- `AppManager.list_installed_apps` for a reachable device. -/
def list_installed_apps (shell : Shell) (show_system : Bool) : List AppInfo :=
  let package_output := pyStrip (shell (pmListCmd show_system))
  if package_output == "" then []
  else
    let package_list := (pySplit package_output "\n").filterMap (fun line =>
      if pyStartsWith line "package:" then some (pyStrip (pyReplace line "package:" ""))
      else none)
    let running := get_running_packages_batch shell
    let apps := package_list.filterMap (fun pkg =>
      if pkg == "" then none
      else get_app_info_fast shell pkg (running.contains pkg) show_system)
    FileManager.sortByLe appLeName apps

/-- The per-package liveness probe of `is_app_running`. -/
def pidofCmd (pkg : String) : String := "pidof " ++ pkg

/-- `AppManager.is_app_running`. -/
def is_app_running (shell : Shell) (package_name : String) : Bool :=
  pyStrip (shell (pidofCmd package_name)) != ""

/-- The `pm path` probe of `get_app_info`. -/
def pmPathCmd (pkg : String) : String := "pm path " ++ pkg

/-- `AppManager.get_app_info` (single-entry lookup); `none` arguments model
the Python `None` defaults. -/
def get_app_info (shell : Shell) (package_name : String)
    (is_running? is_system? : Option Bool) : Option AppInfo :=
  let is_running :=
    match is_running? with
    | some b => b
    | none => is_app_running shell package_name
  let is_system :=
    match is_system? with
    | some b => b
    | none =>
      let path := pyStrip (shell (pmPathCmd package_name))
      containsSub path "/system/" || containsSub path "/vendor/"
  get_app_info_fast shell package_name is_running is_system

end AppManager

/-- A `ppadb` device handle: its serial plus its shell channel. -/
structure AdbDevice where
  serial : String
  shell : Shell

/-- The `ppadb` client as `ADBManager` observes it: whether `version()`
succeeds, and the result of `devices()` (`none` models a raised exception). -/
structure AdbClient where
  versionOk : Bool
  devices? : Option (List AdbDevice)

/-- `DeviceInfo` from `src/models/devicemodel.py` (fields set by
`_get_device_info`). -/
structure DeviceInfo where
  serial : String
  model : String
  manufacturer : String
  android_version : String
  sdk_version : String
  battery_level : Int
  connection_type : String
  screen_resolution : String
  is_connected : Bool
  ip_address : Option String
deriving Repr, DecidableEq

namespace ADBManager

/-- `constants.CONNECTION_USB`. -/
def CONNECTION_USB : String := "USB"

/-- `constants.CONNECTION_NETWORK`. -/
def CONNECTION_NETWORK : String := "Network"

/-- `ADBManager.is_adb_running`: false when the client failed to initialize
or when `version()` raises. -/
def is_adb_running (client : Option AdbClient) : Bool :=
  match client with
  | none => false
  | some c => c.versionOk

/-- `ADBManager._get_device_info` (main path; with a pure shell oracle the
outer `except` fallback is unreachable, and the inner `int` failure leaves
the battery level at 0). -/
def get_device_info (d : AdbDevice) : DeviceInfo :=
  let model := pyStrip (d.shell "getprop ro.product.model")
  let manufacturer := pyStrip (d.shell "getprop ro.product.manufacturer")
  let android_version := pyStrip (d.shell "getprop ro.build.version.release")
  let sdk_version := pyStrip (d.shell "getprop ro.build.version.sdk")
  let battery_raw := pyStrip (d.shell "dumpsys battery | grep level")
  let battery_level : Int :=
    if containsSub battery_raw "level:" then
      match pyInt? (pyStrip ((pySplit battery_raw "level:").getD 1 "")) with
      | some n => n
      | none => 0
    else 0
  let resolution_raw := pyStrip (d.shell "wm size")
  let resolution :=
    if containsSub resolution_raw "Physical size:" then
      pyStrip ((pySplit resolution_raw "Physical size:").getD 1 "")
    else "Unknown"
  let connection_type := if containsSub d.serial ":" then CONNECTION_NETWORK else CONNECTION_USB
  let ip_address :=
    if connection_type == CONNECTION_NETWORK then some ((pySplit d.serial ":").getD 0 "")
    else none
  { serial := d.serial, model := model, manufacturer := manufacturer,
    android_version := android_version, sdk_version := sdk_version,
    battery_level := battery_level, connection_type := connection_type,
    screen_resolution := resolution, is_connected := true,
    ip_address := ip_address }

/-- The `_device_cache` dictionary, as an association list in insertion
order (Python dict semantics: assignment updates in place or appends). -/
abbrev Cache := List (String × AdbDevice)

/-- Python `cache[k] = v`. -/
def dictSet (d : Cache) (k : String) (v : AdbDevice) : Cache :=
  if d.any (fun p => p.1 == k) then d.map (fun p => if p.1 == k then (k, v) else p)
  else d ++ [(k, v)]

/-- Python `k in cache`. -/
def dictMem (d : Cache) (k : String) : Bool := d.any (fun p => p.1 == k)

/-- One iteration of `get_devices`'s device loop: cache the device object
under its serial and append its snapshot. -/
def cacheStep (acc : Cache × List DeviceInfo) (d : AdbDevice) : Cache × List DeviceInfo :=
  (dictSet acc.1 d.serial d, acc.2 ++ [get_device_info d])

/-- `ADBManager.get_devices`, returning the device list, the updated
`_device_cache`, and whether `client.devices()` was queried at all. -/
def get_devices (client : Option AdbClient) (cache : Cache) :
    List DeviceInfo × Cache × Bool :=
  if !is_adb_running client then ([], cache, false)
  else
    match client with
    | none => ([], cache, false)
    | some c =>
      match c.devices? with
      | none => ([], cache, true)
      | some devs =>
        let res := devs.foldl cacheStep (cache, [])
        (res.2, res.1, true)

end ADBManager

/-- `LogEntry` from `src/models/logcatmodel.py`. -/
structure LogEntry where
  timestamp : String
  pid : Int
  tid : Int
  level : String
  tag : String
  message : String
deriving Repr, DecidableEq

namespace LogcatManager

/-- Characters a regex `.` can match (anything but a newline). -/
def dotRun (cs : List Char) : List Char := cs.takeWhile (fun c => c != '\n')

/-- All decompositions of a leading nonempty run of `p`-characters, longest
first — the backtracking order of a greedy `+` quantifier. -/
def greedySplits (p : Char → Bool) (cs : List Char) : List (List Char × List Char) :=
  let m := (cs.takeWhile p).length
  (List.range m).map (fun k => (cs.take (m - k), cs.drop (m - k)))

/-- All decompositions of a nonempty leading `.`-run, shortest first — the
backtracking order of the lazy `(.+?)` group. -/
def lazyDotSplits (cs : List Char) : List (List Char × List Char) :=
  let m := (dotRun cs).length
  (List.range m).map (fun k => (cs.take (k + 1), cs.drop (k + 1)))

/-- First alternative (in preference order) on which the continuation
succeeds — the regex backtracking search. -/
def firstSome {α β : Type} : List α → (α → Option β) → Option β
  | [], _ => none
  | x :: xs, f => match f x with | some b => some b | none => firstSome xs f

/-- Match exactly `n` digits (`\d` repeated with a fixed count). -/
def takeDigits (n : Nat) (cs : List Char) : Option (List Char × List Char) :=
  let pre := cs.take n
  if pre.length == n && pre.all Char.isDigit then some (pre, cs.drop n) else none

/-- Match one literal character. -/
def takeLit (c : Char) : List Char → Option (List Char × List Char)
  | [] => none
  | x :: xs => if x == c then some ([c], xs) else none

/-- Group 1 of the logcat pattern:
the timestamp piece of the regex in `parse_log_line`. -/
def matchTimestamp (cs : List Char) : List (List Char × List Char) :=
  match takeDigits 2 cs with
  | none => []
  | some (d1, r1) =>
    match takeLit '-' r1 with
    | none => []
    | some (h, r2) =>
      match takeDigits 2 r2 with
      | none => []
      | some (d2, r3) =>
        (greedySplits pyIsSpace r3).filterMap (fun ws =>
          match takeDigits 2 ws.2 with
          | none => none
          | some (h1, r5) =>
            match takeLit ':' r5 with
            | none => none
            | some (c1, r6) =>
              match takeDigits 2 r6 with
              | none => none
              | some (m1, r7) =>
                match takeLit ':' r7 with
                | none => none
                | some (c2, r8) =>
                  match takeDigits 2 r8 with
                  | none => none
                  | some (s1, r9) =>
                    match takeLit '.' r9 with
                    | none => none
                    | some (dt, r10) =>
                      match takeDigits 3 r10 with
                      | none => none
                      | some (ms, r11) =>
                        some (d1 ++ h ++ d2 ++ ws.1 ++ h1 ++ c1 ++ m1 ++ c2 ++
                              s1 ++ dt ++ ms, r11))

/-- The severity letters accepted by the `([VDIWEF])` group. -/
def levelChars : List Char := ['V', 'D', 'I', 'W', 'E', 'F']

/-- `re.match` of the full logcat pattern of `parse_log_line`, returning the
six captured groups (timestamp, pid digits, tid digits, level, tag,
message).  The search explores alternatives in the regex engine's
backtracking order: greedy pieces longest-first, the lazy tag
shortest-first, later quantifiers varied before earlier ones. -/
def matchLogPattern (cs : List Char) :
    Option (List Char × List Char × List Char × Char × List Char × List Char) :=
  firstSome (matchTimestamp cs) (fun tsr =>
    firstSome (greedySplits pyIsSpace tsr.2) (fun w1 =>
      firstSome (greedySplits Char.isDigit w1.2) (fun pidr =>
        firstSome (greedySplits pyIsSpace pidr.2) (fun w2 =>
          firstSome (greedySplits Char.isDigit w2.2) (fun tidr =>
            firstSome (greedySplits pyIsSpace tidr.2) (fun w3 =>
              match w3.2 with
              | [] => none
              | lv :: r6 =>
                if levelChars.contains lv then
                  firstSome (greedySplits pyIsSpace r6) (fun w4 =>
                    firstSome (lazyDotSplits w4.2) (fun tagr =>
                      match tagr.2 with
                      | [] => none
                      | c :: r9 =>
                        if c == ':' then
                          firstSome (greedySplits pyIsSpace r9) (fun w5 =>
                            let msgRun := dotRun w5.2
                            if msgRun.isEmpty then none
                            else some (tsr.1, pidr.1, tidr.1, lv, tagr.1, msgRun))
                        else none))
                else none))))))

/-- `LogcatManager.parse_log_line`: regex match plus the field conversions
(`int` on the digit groups cannot fail; tag and message are stripped). -/
def parse_log_line (line : String) : Option LogEntry :=
  match matchLogPattern line.toList with
  | none => none
  | some (ts, pidCs, tidCs, lv, tagCs, msgCs) =>
    some { timestamp := String.mk ts,
           pid := (natOfDigits pidCs : Int),
           tid := (natOfDigits tidCs : Int),
           level := String.mk [lv],
           tag := pyStrip (String.mk tagCs),
           message := pyStrip (String.mk msgCs) }

end LogcatManager

/-- What `LogcatController.on_log_received` hands to the log widget:
a parsed entry, or the raw line as fallback. -/
inductive Delivered where
  | entry (e : LogEntry)
  | raw (line : String)
deriving Repr, DecidableEq

namespace LogcatController

/-- `LogcatController.on_log_received`: the consumer-side handler for each
streamed line; `none` means the line was not delivered to the widget. -/
def on_log_received (line : String) : Option Delivered :=
  if pyStrip line == "" then none
  else
    match LogcatManager.parse_log_line line with
    | some e => some (Delivered.entry e)
    | none => some (Delivered.raw line)

end LogcatController

/-! ## Helper lemmas -/

theorem insertSorted_perm {α : Type} (le : α → α → Bool) (x : α) (l : List α) :
    List.Perm (FileManager.insertSorted le x l) (x :: l) := by
  induction l with
  | nil => exact List.Perm.refl _
  | cons y ys ih =>
    unfold FileManager.insertSorted
    split
    · exact List.Perm.refl _
    · exact (ih.cons y).trans (List.Perm.swap x y ys)

theorem sortByLe_perm {α : Type} (le : α → α → Bool) (l : List α) :
    List.Perm (FileManager.sortByLe le l) l := by
  induction l with
  | nil => exact List.Perm.refl _
  | cons x xs ih => exact (insertSorted_perm le x _).trans (ih.cons x)

theorem mem_sortByLe {α : Type} (le : α → α → Bool) (a : α) (l : List α) :
    a ∈ FileManager.sortByLe le l ↔ a ∈ l :=
  (sortByLe_perm le l).mem_iff

theorem displayJoin_eq_append (base name : String) :
    ∃ rest, FileManager.displayJoin base name = base ++ rest := by
  unfold FileManager.displayJoin
  split
  · exact ⟨name, rfl⟩
  · exact ⟨"/" ++ name, by rw [String.append_assoc]⟩

theorem parse_ls_line_starts_with_base (shell : Shell) (line db ab : String)
    (fi : FileItem) (h : FileManager.parse_ls_line shell line db ab = some fi) :
    ∃ rest, fi.path = db ++ rest := by
  simp only [FileManager.parse_ls_line] at h
  split at h
  · exact absurd h (by simp)
  · rw [Option.some.injEq] at h
    subst h
    exact displayJoin_eq_append db _

theorem resolveSymlinkCalls_le (shell : Shell) :
    ∀ (fuel : Nat) (visited : List String) (path : String),
      FileManager.resolveSymlinkCalls shell fuel visited path ≤ fuel := by
  intro fuel
  induction fuel with
  | zero => intro visited path; exact Nat.le_refl 0
  | succ n ih =>
    intro visited path
    simp only [FileManager.resolveSymlinkCalls]
    split
    · exact Nat.zero_le _
    · split
      · split
        · exact Nat.le_trans (Nat.add_le_add_left (ih _ _) 1) (by omega)
        · omega
      · omega

/-! ## Concrete fixtures used by witnesses and counterexamples -/

/-- A device with a two-link symlink cycle `/a -> /b -> /a`. -/
def cycleShell : Shell := fun cmd =>
  if cmd == FileManager.lsLdCmd "/a" then
    "lrwxrwxrwx 1 root root 1 2024-01-01 00:00 /a -> /b"
  else if cmd == FileManager.lsLdCmd "/b" then
    "lrwxrwxrwx 1 root root 1 2024-01-01 00:00 /b -> /a"
  else ""

/-- A device on which `kill 123` is rejected for permissions and the pid
resolves to the package `com.example.app`. -/
def permStubShell : Shell := fun cmd =>
  if cmd == ProcessManager.killCmd 123 then "kill: 123: Operation not permitted"
  else if cmd == ProcessManager.psNameCmd 123 then "NAME\ncom.example.app"
  else ""

/-- A device on which `kill 123` succeeds silently. -/
def cleanKillShell : Shell := fun _ => ""

/-- A device whose process table has a header and one 2-column row whose
final column is an app-like token. -/
def shortRowShell : Shell := fun cmd =>
  if cmd == "ps -A" then "PID NAME\n123 com.foo.bar" else ""

/-! ## Claim theorems -/

/-- C2: symlink resolution always terminates — it issues at most the fixed
maximum of 10 probes on any input (stopping early when the path is not a
symlink or a path is revisited) — and on the cyclic chain
`/a -> /b -> /a` it stops at the revisit and returns the last path reached,
`/a`, deterministically. -/
theorem resolve_symlink_terminates :
    (∀ (shell : Shell) (path : String),
        FileManager.resolveSymlinkCalls shell 10 [] path ≤ 10) ∧
    FileManager.resolve_symlink cycleShell "/a" = "/a" :=
  ⟨fun shell path => resolveSymlinkCalls_le shell 10 [] path, by decide⟩

/-- C6: the literal listing line
`-rw-rw---- 1 u0_a123 sdcard_rw 2048 2024-01-01 10:00 notes.txt`, parsed
against any display base and any actual base on any device, yields size
2048, not a directory, not a symlink, name `notes.txt`, owner `u0_a123`,
and the display base joined with `notes.txt` as its path. -/
theorem parse_ls_line_literal_notes (shell : Shell) (base actual : String) :
    FileManager.parse_ls_line shell
        "-rw-rw---- 1 u0_a123 sdcard_rw 2048 2024-01-01 10:00 notes.txt" base actual =
      some { name := "notes.txt", path := FileManager.displayJoin base "notes.txt",
             size := 2048, permissions := "-rw-rw----", is_directory := false,
             is_symlink := false, owner := "u0_a123" } := rfl

/-- C8 counterexample: a whitespace-only line received from the stream is
not delivered at all — `on_log_received` returns before parsing — refuting
that every received line is delivered. -/
theorem on_log_received_drops_blank_line :
    LogcatController.on_log_received " " = none := rfl

/-- C8 (amended): every received line with non-whitespace content is
delivered — as a parsed record when the structured parse succeeds, and as
the raw-text fallback otherwise; only whitespace-only lines are dropped. -/
theorem on_log_received_delivers_nonblank (line : String) (h : pyStrip line ≠ "") :
    LogcatController.on_log_received line =
      some (match LogcatManager.parse_log_line line with
            | some e => Delivered.entry e
            | none => Delivered.raw line) := by
  unfold LogcatController.on_log_received
  rw [if_neg (by simpa using h)]
  cases hp : LogcatManager.parse_log_line line <;> rfl

/-- C8 witness: a concrete structured logcat line is nonblank and is
delivered as its parsed record. -/
theorem on_log_received_delivers_nonblank_witness :
    pyStrip "01-27 13:30:45.123  1234  5678 I Tag: Message" ≠ "" ∧
    LogcatController.on_log_received "01-27 13:30:45.123  1234  5678 I Tag: Message" =
      some (match LogcatManager.parse_log_line "01-27 13:30:45.123  1234  5678 I Tag: Message" with
            | some e => Delivered.entry e
            | none => Delivered.raw "01-27 13:30:45.123  1234  5678 I Tag: Message") :=
  ⟨by decide, on_log_received_delivers_nonblank _ (by decide)⟩

/-- C3 counterexample: on the permission-denied stub the fallback
(`am force-stop com.example.app`) is applied, but the value returned to the
caller is the plain boolean `true` — identical to the result of a clean
`kill` — so no `FallbackApplied` tag distinguishes the two. -/
theorem kill_process_fallback_is_plain_success :
    (ProcessManager.kill_process permStubShell 123).2.contains
        (ProcessManager.forceStopCmd "com.example.app") = true ∧
    (ProcessManager.kill_process permStubShell 123).1 = true ∧
    (ProcessManager.kill_process permStubShell 123).1 =
      (ProcessManager.kill_process cleanKillShell 123).1 := by decide

/-- C3 (amended): when the kill output reports a permission rejection and
the pid's process-info probe yields a dotted package name, `kill_process`
issues `am force-stop` for that package and returns plain `True` — the same
boolean as a clean success, with no fallback tagging in the result. -/
theorem kill_process_perm_denied_force_stops (shell : Shell) (pid : Int) (pkg : String)
    (h1 : containsSub (shell (ProcessManager.killCmd pid)) "No such process" = false)
    (h2 : (containsSub (shell (ProcessManager.killCmd pid)) "Permission denied" ||
           containsSub (shell (ProcessManager.killCmd pid)) "Operation not permitted") = true)
    (h3 : (pySplit (pyStrip (shell (ProcessManager.psNameCmd pid))) "\n").length > 1)
    (h4 : pyStrip ((pySplit (pyStrip (shell (ProcessManager.psNameCmd pid))) "\n").getD 1 "") = pkg)
    (h5 : containsSub pkg "." = true) :
    ProcessManager.kill_process shell pid =
      (true, [ProcessManager.killCmd pid, ProcessManager.psNameCmd pid,
              ProcessManager.forceStopCmd pkg]) := by
  simp only [ProcessManager.kill_process]
  rw [h1, if_neg Bool.false_ne_true, h2, if_pos rfl, if_pos h3, h4, h5, if_pos rfl]

/-- C3 witness: the amended statement at the concrete permission-denied
stub device. -/
theorem kill_process_perm_denied_force_stops_witness :
    ProcessManager.kill_process permStubShell 123 =
      (true, [ProcessManager.killCmd 123, ProcessManager.psNameCmd 123,
              ProcessManager.forceStopCmd "com.example.app"]) :=
  kill_process_perm_denied_force_stops permStubShell 123 "com.example.app"
    (by decide) (by decide) (by decide) (by decide) (by decide)

/-- C5 counterexample: a process-table row with fewer than 9
whitespace-separated fields contributes nothing, even though its final
column is an app-like token — refuting that every row's final column is
tested. -/
theorem running_batch_ignores_short_rows :
    AppManager.appLike "com.foo.bar" = true ∧
    AppManager.get_running_packages_batch shortRowShell = [] := by decide

/-- C5 (amended): the batched running-package query issues one process-list
command and returns exactly the app-like final-column tokens (containing a
dot, not beginning with a slash) of those rows after the header row that
have at least 9 whitespace-separated fields. -/
theorem running_batch_mem_iff (shell : Shell) (t : String) :
    t ∈ AppManager.get_running_packages_batch shell ↔
      ∃ line ∈ (pySplit (AppManager.psOutputOf shell) "\n").drop 1,
        (pySplitWs line).length ≥ 9 ∧ (pySplitWs line).getLastD "" = t ∧
        AppManager.appLike t = true := by
  unfold AppManager.get_running_packages_batch
  simp only [List.mem_filterMap]
  constructor
  · rintro ⟨line, hmem, hf⟩
    refine ⟨line, hmem, ?_⟩
    by_cases h9 : (pySplitWs line).length ≥ 9
    · rw [if_pos h9] at hf
      by_cases happ : AppManager.appLike ((pySplitWs line).getLastD "") = true
      · rw [if_pos happ] at hf
        rw [Option.some.injEq] at hf
        subst hf
        exact ⟨h9, rfl, happ⟩
      · rw [if_neg happ] at hf
        exact absurd hf (by simp)
    · rw [if_neg h9] at hf
      exact absurd hf (by simp)
  · rintro ⟨line, hmem, h9, hlast, happ⟩
    refine ⟨line, hmem, ?_⟩
    rw [if_pos h9, hlast, if_pos happ]

/-- C7: when the version handshake fails, discovery performs no device-list
query and returns the empty device list; and when the device-list query
itself fails (a raised transport exception), the exception is swallowed and
the empty list is returned — never propagated. -/
theorem get_devices_degrades_to_empty (client : Option AdbClient) (cache : ADBManager.Cache) :
    (ADBManager.is_adb_running client = false →
      ADBManager.get_devices client cache = ([], cache, false)) ∧
    (∀ c, client = some c → c.versionOk = true → c.devices? = none →
      ADBManager.get_devices client cache = ([], cache, true)) := by
  constructor
  · intro h
    simp [ADBManager.get_devices, h]
  · rintro c rfl hv hd
    simp [ADBManager.get_devices, ADBManager.is_adb_running, hv, hd]

theorem dictMem_dictSet_iff (d : ADBManager.Cache) (k k' : String) (v : AdbDevice) :
    ADBManager.dictMem (ADBManager.dictSet d k v) k' = true ↔
      (k' = k ∨ ADBManager.dictMem d k' = true) := by
  unfold ADBManager.dictSet ADBManager.dictMem
  split
  · rename_i hany
    rw [List.any_map]
    simp only [List.any_eq_true] at hany ⊢
    constructor
    · rintro ⟨p, hp, hb⟩
      simp only [Function.comp] at hb
      by_cases hpk : (p.1 == k) = true
      · rw [if_pos hpk] at hb
        exact Or.inl (beq_iff_eq.mp hb).symm
      · rw [if_neg hpk] at hb
        exact Or.inr ⟨p, hp, hb⟩
    · rintro (rfl | ⟨p, hp, hb⟩)
      · obtain ⟨p, hp, hpk⟩ := hany
        refine ⟨p, hp, ?_⟩
        simp only [Function.comp]
        rw [if_pos hpk]
        exact beq_self_eq_true _
      · refine ⟨p, hp, ?_⟩
        simp only [Function.comp]
        by_cases hpk : (p.1 == k) = true
        · rw [if_pos hpk]
          exact beq_iff_eq.mpr ((beq_iff_eq.mp hpk).symm.trans (beq_iff_eq.mp hb))
        · rw [if_neg hpk]
          exact hb
  · rw [List.any_append]
    simp only [List.any_eq_true, Bool.or_eq_true, List.any_cons, List.any_nil,
      Bool.or_false]
    constructor
    · rintro (⟨p, hp, hb⟩ | h)
      · exact Or.inr ⟨p, hp, hb⟩
      · exact Or.inl (beq_iff_eq.mp h).symm
    · rintro (rfl | ⟨p, hp, hb⟩)
      · exact Or.inr (beq_self_eq_true _)
      · exact Or.inl ⟨p, hp, hb⟩

theorem dictMem_foldl_cacheStep (devs : List AdbDevice) :
    ∀ (st : ADBManager.Cache × List DeviceInfo) (k : String),
      ADBManager.dictMem (devs.foldl ADBManager.cacheStep st).1 k = true ↔
        ((∃ d ∈ devs, d.serial = k) ∨ ADBManager.dictMem st.1 k = true) := by
  induction devs with
  | nil => intro st k; simp
  | cons d ds ih =>
    intro st k
    rw [List.foldl_cons, ih]
    constructor
    · rintro (⟨e, he, rfl⟩ | hmem)
      · exact Or.inl ⟨e, List.mem_cons_of_mem d he, rfl⟩
      · rcases (dictMem_dictSet_iff st.1 d.serial k d).mp hmem with rfl | hm
        · exact Or.inl ⟨d, List.mem_cons_self d ds, rfl⟩
        · exact Or.inr hm
    · rintro (⟨e, he, rfl⟩ | hmem)
      · rcases List.mem_cons.mp he with rfl | hmem2
        · exact Or.inr ((dictMem_dictSet_iff st.1 e.serial e.serial e).mpr (Or.inl rfl))
        · exact Or.inl ⟨e, hmem2, rfl⟩
      · exact Or.inr ((dictMem_dictSet_iff st.1 d.serial k d).mpr (Or.inr hmem))

/-- A stale cached device that a later refresh does not report. -/
def oldDev : AdbDevice := ⟨"OLD", fun _ => ""⟩

/-- The only device a refresh reports. -/
def newDev : AdbDevice := ⟨"NEW", fun _ => ""⟩

/-- A live client whose refresh reports exactly `newDev`. -/
def refreshClient : AdbClient := ⟨true, some [newDev]⟩

/-- C4 counterexample: after a refresh that reports only serial `NEW`, the
stale cache entry for serial `OLD` is still present — refuting that stale
entries are purged by the refresh. -/
theorem get_devices_keeps_stale_serial :
    ADBManager.dictMem
        (ADBManager.get_devices (some refreshClient) [("OLD", oldDev)]).2.1 "OLD" = true ∧
    ¬ ∃ d ∈ [newDev], d.serial = "OLD" := by
  constructor
  · rfl
  · rintro ⟨d, hd, hser⟩
    rw [List.mem_singleton] at hd
    subst hd
    exact absurd hser (by decide)

/-- C4 (amended): after a discovery refresh the session cache contains an
entry for every serial the refresh reported (created or overwritten keyed
by serial), and every previously cached serial also remains — stale entries
are NOT purged by the refresh (they are removed only by an explicit network
disconnect). -/
theorem get_devices_cache_refresh (c : AdbClient) (devs : List AdbDevice)
    (cache : ADBManager.Cache) (hv : c.versionOk = true) (hd : c.devices? = some devs) :
    (∀ d ∈ devs,
        ADBManager.dictMem (ADBManager.get_devices (some c) cache).2.1 d.serial = true) ∧
    (∀ k, ADBManager.dictMem cache k = true →
        ADBManager.dictMem (ADBManager.get_devices (some c) cache).2.1 k = true) := by
  have hout : (ADBManager.get_devices (some c) cache).2.1 =
      (devs.foldl ADBManager.cacheStep (cache, [])).1 := by
    simp [ADBManager.get_devices, ADBManager.is_adb_running, hv, hd]
  constructor
  · intro d hd2
    rw [hout, dictMem_foldl_cacheStep]
    exact Or.inl ⟨d, hd2, rfl⟩
  · intro k hk
    rw [hout, dictMem_foldl_cacheStep]
    exact Or.inr hk

/-- C4 witness: the amended statement at the concrete one-device refresh
over a cache holding the stale serial `OLD`. -/
theorem get_devices_cache_refresh_witness :
    ADBManager.dictMem
        (ADBManager.get_devices (some refreshClient) [("OLD", oldDev)]).2.1 "NEW" = true ∧
    ADBManager.dictMem
        (ADBManager.get_devices (some refreshClient) [("OLD", oldDev)]).2.1 "OLD" = true := by
  have h := get_devices_cache_refresh refreshClient [newDev] [("OLD", oldDev)] rfl rfl
  exact ⟨h.1 newDev (List.mem_singleton.mpr rfl), h.2 "OLD" rfl⟩

/-- C1: every entry produced by listing a display path has a `path` field
that extends the caller's (normalized) display path — the prefix comes
from the original display path, never from the symlink-resolved actual
path, no matter what the resolution produced. -/
theorem list_directory_path_preserves_display
    (shell : Shell) (display_path : String) (show_hidden : Bool) (fi : FileItem)
    (h : fi ∈ FileManager.list_directory shell display_path show_hidden) :
    ∃ rest, fi.path = FileManager.normDisplay display_path ++ rest := by
  simp only [FileManager.list_directory] at h
  split at h
  · exact absurd h (by simp)
  · split at h
    · exact absurd h (by simp)
    · rw [mem_sortByLe] at h
      obtain ⟨line, hline, hf⟩ := List.mem_filterMap.mp h
      split at hf
      · exact absurd hf (by simp)
      · split at hf
        · exact absurd hf (by simp)
        · rename_i fi0 heq
          split at hf
          · rw [Option.some.injEq] at hf
            subst hf
            exact parse_ls_line_starts_with_base _ _ _ _ _ heq
          · exact absurd hf (by simp)

/-- The entry parsed from the sample listing line. -/
def sampleFile : FileItem :=
  { name := "notes.txt", path := "/sdcard/notes.txt", size := 2048,
    permissions := "-rw-rw----", is_directory := false, is_symlink := false,
    owner := "u0_a123" }

/-- A device whose `/sdcard` listing holds one regular file. -/
def sampleLsShell : Shell := fun cmd =>
  if cmd == FileManager.lsCmd false "/sdcard" then
    "total 8\n-rw-rw---- 1 u0_a123 sdcard_rw 2048 2024-01-01 10:00 notes.txt"
  else ""

/-- C1 witness: the concrete `/sdcard` listing produces `sampleFile`, whose
path extends the display path `/sdcard`. -/
theorem list_directory_path_preserves_display_witness :
    sampleFile ∈ FileManager.list_directory sampleLsShell "/sdcard" false ∧
    ∃ rest, sampleFile.path = FileManager.normDisplay "/sdcard" ++ rest :=
  ⟨by decide,
   list_directory_path_preserves_display sampleLsShell "/sdcard" false sampleFile
     (by decide)⟩

/-- C7 witness: concrete dead-handshake and failing-device-list clients. -/
theorem get_devices_degrades_to_empty_witness :
    ADBManager.get_devices (some ⟨false, none⟩) [] = ([], [], false) ∧
    ADBManager.get_devices (some ⟨true, none⟩) [] = ([], [], true) :=
  ⟨(get_devices_degrades_to_empty (some ⟨false, none⟩) []).1 rfl,
   (get_devices_degrades_to_empty (some ⟨true, none⟩) []).2 ⟨true, none⟩ rfl rfl rfl⟩

theorem all_space_of_strip_rep :
    ∀ cs : List Char,
      ((cs.dropWhile pyIsSpace).reverse.dropWhile pyIsSpace).reverse = [] →
      ∀ c ∈ cs, pyIsSpace c := by
  intro cs
  induction cs with
  | nil => simp
  | cons c cs2 ih =>
    intro h d hd
    by_cases hc : pyIsSpace c
    · rw [List.dropWhile_cons, if_pos hc] at h
      rcases List.mem_cons.mp hd with rfl | hd2
      · exact hc
      · exact ih h d hd2
    · rw [List.dropWhile_cons, if_neg hc] at h
      rw [List.reverse_eq_nil_iff, List.dropWhile_eq_nil_iff] at h
      exact absurd (h c (by simp)) hc

theorem pyStrip_eq_empty_all_space (line : String) (h : pyStrip line = "") :
    ∀ c ∈ line.toList, pyIsSpace c :=
  all_space_of_strip_rep line.toList (congrArg String.data h)

theorem pySplitWsAux_nil_of_all_space :
    ∀ cs : List Char, (∀ c ∈ cs, pyIsSpace c) → pySplitWsAux cs [] = [] := by
  intro cs
  induction cs with
  | nil => intro _; rfl
  | cons c cs2 ih =>
    intro h
    have hc := h c (List.mem_cons_self c cs2)
    have hstep : pySplitWsAux (c :: cs2) [] = pySplitWsAux cs2 [] := by
      simp [pySplitWsAux, hc]
    rw [hstep]
    exact ih (fun d hd => h d (List.mem_cons_of_mem c hd))

theorem pySplitWs_nil_of_strip_empty (line : String) (h : pyStrip line = "") :
    pySplitWs line = [] :=
  pySplitWsAux_nil_of_all_space line.toList (pyStrip_eq_empty_all_space line h)

theorem parse_ps_line_blank (line : String) (h : pyStrip line = "") :
    ProcessManager.parse_ps_line line = none := by
  simp [ProcessManager.parse_ps_line, pySplitWs_nil_of_strip_empty line h]

theorem parse_ls_line_blank (shell : Shell) (line db ab : String)
    (h : pyStrip line = "") :
    FileManager.parse_ls_line shell line db ab = none := by
  simp [FileManager.parse_ls_line, pySplitWs_nil_of_strip_empty line h]

/-- C9: a line that parses is never lost to its neighbours — for the
process listing, every body line whose parse succeeds contributes its entry
to the result, and for the directory listing, every non-header line whose
parse succeeds and whose entry passes the name filters contributes its
entry — no matter how many other lines of the same output are unparsable
(those are skipped individually). -/
theorem unparsable_lines_skipped_individually
    (shell : Shell) (display_path : String) (show_hidden : Bool) :
    (∀ line ∈ (pySplit (pyStrip (shell ProcessManager.psListCmd)) "\n").drop 1,
      ∀ p, ProcessManager.parse_ps_line line = some p →
        p ∈ ProcessManager.list_processes shell) ∧
    (∀ line ∈ pySplit
        (FileManager.listingOutput shell (FileManager.normDisplay display_path)
          show_hidden) "\n",
      containsSub (FileManager.listingOutput shell
          (FileManager.normDisplay display_path) show_hidden)
          "Permission denied" = false →
      containsSub (FileManager.listingOutput shell
          (FileManager.normDisplay display_path) show_hidden)
          "No such file" = false →
      pyStartsWith line "total" = false →
      ∀ fi, FileManager.parse_ls_line shell line (FileManager.normDisplay display_path)
          (FileManager.resolve_symlink shell (FileManager.normDisplay display_path)) =
          some fi →
        FileManager.keepEntry show_hidden fi = true →
        fi ∈ FileManager.list_directory shell display_path show_hidden) := by
  constructor
  · intro line hline p hp
    have hblank : (pyStrip line == "") = false := by
      rw [beq_eq_false_iff_ne]
      intro hq
      rw [parse_ps_line_blank line hq] at hp
      exact Option.noConfusion hp
    have hne : (pyStrip (shell ProcessManager.psListCmd) == "") = false := by
      rw [beq_eq_false_iff_ne]
      intro hq
      rw [hq] at hline
      rw [show pySplit "" "\n" = [""] from rfl] at hline
      simp at hline
    simp only [ProcessManager.list_processes]
    rw [hne, if_neg Bool.false_ne_true]
    apply List.mem_filterMap.mpr
    refine ⟨line, hline, ?_⟩
    rw [hblank, if_neg Bool.false_ne_true]
    exact hp
  · intro line hline hperm hnsf htot fi hparse hkeep
    have hne : (FileManager.listingOutput shell (FileManager.normDisplay display_path)
        show_hidden == "") = false := by
      rw [beq_eq_false_iff_ne]
      intro hq
      rw [hq] at hline
      rw [show pySplit "" "\n" = [""] from rfl] at hline
      rw [List.mem_singleton] at hline
      subst hline
      rw [parse_ls_line_blank shell "" _ _ rfl] at hparse
      exact Option.noConfusion hparse
    have hblank : (pyStrip line == "") = false := by
      rw [beq_eq_false_iff_ne]
      intro hq
      rw [parse_ls_line_blank shell line _ _ hq] at hparse
      exact Option.noConfusion hparse
    simp only [FileManager.list_directory]
    rw [hperm, if_neg Bool.false_ne_true]
    rw [hnsf, Bool.false_or, hne, if_neg Bool.false_ne_true]
    rw [mem_sortByLe]
    apply List.mem_filterMap.mpr
    refine ⟨line, hline, ?_⟩
    rw [hblank, htot, Bool.false_or, if_neg Bool.false_ne_true]
    rw [hparse]
    show (if FileManager.keepEntry show_hidden fi = true then some fi else none) = some fi
    rw [if_pos hkeep]

/-- A process table holding one unparsable line between the header and a
well-formed row. -/
def mixedPsShell : Shell := fun cmd =>
  if cmd == ProcessManager.psListCmd then
    "PID USER VSZ STAT NAME\nbadline\n456 u0_a1 200 S com.app.x"
  else ""

/-- The entry parsed from the well-formed row of `mixedPsShell`. -/
def procSample : ProcessInfo :=
  { pid := 456, name := "com.app.x", user := "u0_a1", mem_size := 200, state := "S" }

/-- A `/sdcard` listing holding one unparsable line before a well-formed
file row. -/
def mixedLsShell : Shell := fun cmd =>
  if cmd == FileManager.lsCmd false "/sdcard" then
    "total 8\nbad line\n-rw-rw---- 1 u0_a123 sdcard_rw 2048 2024-01-01 10:00 notes.txt"
  else ""

/-- C9 witness: on outputs that each contain an unparsable line, the entry
of the well-formed line is still returned, for both listings. -/
theorem unparsable_lines_skipped_individually_witness :
    procSample ∈ ProcessManager.list_processes mixedPsShell ∧
    sampleFile ∈ FileManager.list_directory mixedLsShell "/sdcard" false := by
  constructor
  · exact (unparsable_lines_skipped_individually mixedPsShell "/sdcard" false).1
      "456 u0_a1 200 S com.app.x" (by decide) procSample (by decide)
  · exact (unparsable_lines_skipped_individually mixedLsShell "/sdcard" false).2
      "-rw-rw---- 1 u0_a123 sdcard_rw 2048 2024-01-01 10:00 notes.txt" (by decide)
      (by decide) (by decide) (by decide) sampleFile (by decide) (by decide)

theorem pySplitFuel_no_sep (sep : List Char) :
    ∀ (fuel : Nat) (cs acc : List Char), containsSubAux sep cs = false →
      cs.length ≤ fuel → pySplitFuel sep fuel cs acc = [acc.reverse ++ cs] := by
  intro fuel
  induction fuel with
  | zero =>
    intro cs acc h hlen
    have hnil : cs = [] := List.eq_nil_of_length_eq_zero (Nat.le_zero.mp hlen)
    subst hnil
    simp [pySplitFuel]
  | succ n ih =>
    intro cs acc h hlen
    match cs with
    | [] => simp [pySplitFuel]
    | c :: cs2 =>
      have hns : listStarts sep (c :: cs2) = false := by
        cases hq : listStarts sep (c :: cs2)
        · rfl
        · exfalso
          unfold containsSubAux at h
          rw [hq] at h
          simp at h
      have h2 : containsSubAux sep cs2 = false := by
        cases hq2 : containsSubAux sep cs2
        · rfl
        · exfalso
          unfold containsSubAux at h
          rw [hq2] at h
          simp at h
      have hlen2 : cs2.length ≤ n := by
        simp only [List.length_cons] at hlen
        omega
      simp only [pySplitFuel]
      rw [hns, Bool.false_and, if_neg Bool.false_ne_true]
      rw [ih cs2 (c :: acc) h2 hlen2]
      simp

theorem pySplit_no_dot (pkg : String) (h : containsSub pkg "." = false) :
    pySplit pkg "." = [pkg] := by
  unfold containsSub at h
  unfold pySplit
  rw [pySplitFuel_no_sep _ _ _ _ h (Nat.le_refl _)]
  show [String.mk ([] ++ pkg.toList)] = [pkg]
  cases pkg
  rfl

/-- C10 (implicit): a package name containing no dot is silently dropped —
the fast per-package probe yields no entry, the single-entry lookup yields
no entry, and no entry of any full listing carries such a package name,
because the derived display name indexes the second dot-separated segment
and that indexing fails (and is converted to an absent result) when the
name has no dot. -/
theorem no_dot_package_omitted (shell : Shell) (pkg : String)
    (h : containsSub pkg "." = false) :
    (∀ r s, AppManager.get_app_info_fast shell pkg r s = none) ∧
    (∀ r? s?, AppManager.get_app_info shell pkg r? s? = none) ∧
    (∀ show_system, ∀ a ∈ AppManager.list_installed_apps shell show_system,
        a.package_name ≠ pkg) := by
  have hfast : ∀ (sh : Shell) (r s : Bool),
      AppManager.get_app_info_fast sh pkg r s = none := by
    intro sh r s
    simp only [AppManager.get_app_info_fast]
    rw [pySplit_no_dot pkg h]
    rw [if_pos (by simp)]
  refine ⟨hfast shell, ?_, ?_⟩
  · intro r? s?
    simp only [AppManager.get_app_info]
    exact hfast shell _ _
  · intro show_system a ha
    simp only [AppManager.list_installed_apps] at ha
    split at ha
    · exact absurd ha (by simp)
    · rw [mem_sortByLe] at ha
      obtain ⟨pkg2, hp2, hf⟩ := List.mem_filterMap.mp ha
      split at hf
      · exact absurd hf (by simp)
      · intro hcontra
        have hname : a.package_name = pkg2 := by
          simp only [AppManager.get_app_info_fast] at hf
          split at hf
          · exact absurd hf (by simp)
          · rw [Option.some.injEq] at hf
            subst hf
            rfl
        rw [hname] at hcontra
        subst hcontra
        rw [hfast shell _ _] at hf
        exact Option.noConfusion hf

/-- C10 witness: the concrete dotless package name `nodots` yields no
entry from the fast probe and no entry from the single-entry lookup. -/
theorem no_dot_package_omitted_witness :
    AppManager.get_app_info_fast cleanKillShell "nodots" true false = none ∧
    AppManager.get_app_info cleanKillShell "nodots" none none = none := by
  have h := no_dot_package_omitted cleanKillShell "nodots" (by decide)
  exact ⟨h.1 true false, h.2.1 none none⟩

end AdbVM
